import Mathlib

/-!
Formal model of the leaderboard route handler
(`src/src/app/api/leaderboard/route.ts`).

JS numbers are modelled by `Int` (all values involved are integers far
below 2^53, where double arithmetic on integers is exact); the one float
expression `(total / 20) * 100` is modelled by its exact rational value,
which `Math.round` maps to the same integer as the float computation does
at these magnitudes.  Absent object fields (`undefined`) are modelled by
`Option`.  Thrown exceptions are modelled by `Except.error`.
-/

/-- A raw CSV row as produced by the csv parser: each relevant column is
either present (`some`) or absent (`none`). -/
structure CsvRow where
  userName : Option String
  skillBadgesCompleted : Option String
  arcadeGamesCompleted : Option String
  accessCodeRedemption : Option String
deriving DecidableEq, Repr

/-- JS string falsiness: `s || d` yields `d` exactly when `s` is empty. -/
def jsOrString (s d : String) : String := if s = "" then d else s

/-- JS `field || d` where the field may be absent (`undefined`). -/
def jsOrOptString (o : Option String) (d : String) : String :=
  match o with
  | none => d
  | some s => jsOrString s d

/-- Leading decimal digits of a character list, as consumed by JS
`parseInt` with radix 10; `none` models NaN (no leading digit). -/
def parseDigits (cs : List Char) : Option Nat :=
  let ds := cs.takeWhile (fun c => c.isDigit)
  if ds.isEmpty then none
  else some (ds.foldl (fun acc c => acc * 10 + (c.toNat - 48)) 0)

/-- Model of JS `parseInt(s, 10)`: skip leading whitespace, read an
optional sign, then leading decimal digits; `none` models NaN. -/
def parseIntJS (s : String) : Option Int :=
  match s.toList.dropWhile (fun c => c.isWhitespace) with
  | '-' :: rest => (parseDigits rest).map (fun n => -(n : Int))
  | '+' :: rest => (parseDigits rest).map (fun n => (n : Int))
  | cs => (parseDigits cs).map (fun n => (n : Int))

/-- Model of `parseInt(field, 10) || 0`: an absent field or a failed
parse gives 0 (and a parsed 0, being falsy, is also replaced by 0). -/
def jsParseIntOr0 (field : Option String) : Int :=
  match field with
  | none => 0
  | some s =>
    match parseIntJS s with
    | none => 0
    | some n => n

/-- Model of JS `String.prototype.trim`: drop whitespace from both ends. -/
def jsTrim (s : String) : String :=
  ⟨(((s.toList.dropWhile (fun c => c.isWhitespace)).reverse.dropWhile
      (fun c => c.isWhitespace)).reverse)⟩

/-- Model of JS `String.prototype.toLowerCase` (the route only compares
ASCII data, so ASCII lowercasing is the relevant behaviour). -/
def jsToLower (s : String) : String :=
  ⟨s.toList.map (fun c => c.toLower)⟩

/-- Model of `item['Access Code Redemption Status']?.trim().toLowerCase()
=== "yes"`; the optional chain makes an absent field compare `false`. -/
def redemptionOf (field : Option String) : Bool :=
  match field with
  | none => false
  | some s => jsToLower (jsTrim s) == "yes"

/-- Model of `Math.round` (round half toward positive infinity) applied
to the exact rational value of the JS expression. -/
def jsRound (q : ℚ) : Int := ⌊q + 1/2⌋

/-- Derivation of the progress field:
`Math.min(Math.round((total / 20) * 100), 100)`. -/
def progressOf (total : Int) : Int :=
  min (jsRound ((total : ℚ) / 20 * 100)) 100

/-- The processed per-row record (interface `LeaderboardEntry`, before
the rank is added). -/
structure LeaderboardEntry where
  name : String
  redemptionStatus : Bool
  skillBadges : Int
  arcadePoints : Int
  progress : Int
  skillBadgesStr : String
  arcadePointsStr : String
deriving DecidableEq, Repr

/-- The callback of `results.map(item => ...)` in the handler. -/
def processRow (item : CsvRow) : LeaderboardEntry :=
  let skillBadges := jsParseIntOr0 item.skillBadgesCompleted
  let arcadePoints := jsParseIntOr0 item.arcadeGamesCompleted
  let redemptionStatus := redemptionOf item.accessCodeRedemption
  let total := skillBadges + arcadePoints
  let progress := progressOf total
  { name := jsOrOptString item.userName "Unknown Name"
    redemptionStatus := redemptionStatus
    skillBadges := skillBadges
    arcadePoints := arcadePoints
    progress := progress
    skillBadgesStr := toString skillBadges ++ "/19"
    arcadePointsStr := toString arcadePoints ++ "/1" }

/-- Removal of a leading duplicate-header row: the handler runs
`if (results.length > 0 && results[0]['User Name'] === 'User Name')`
then `results.shift()`. -/
def stripHeader (results : List CsvRow) : List CsvRow :=
  match results with
  | [] => []
  | r :: rest => if r.userName = some "User Name" then rest else r :: rest

/-- The comparator passed to `processedData.sort`, parameterised by the
locale-aware string comparison `lc` underlying `localeCompare`. -/
def cmpEntries (lc : String → String → Int) (a b : LeaderboardEntry) : Int :=
  if a.redemptionStatus ≠ b.redemptionStatus then
    if a.redemptionStatus then -1 else 1
  else if b.skillBadges ≠ a.skillBadges then b.skillBadges - a.skillBadges
  else if b.arcadePoints ≠ a.arcadePoints then b.arcadePoints - a.arcadePoints
  else lc (jsOrString a.name "") (jsOrString b.name "")

/-- Nonpositive comparator value: the order `Array.prototype.sort`
arranges elements by. -/
def entryLe (lc : String → String → Int) (a b : LeaderboardEntry) : Bool :=
  cmpEntries lc a b ≤ 0

/-- Model of the stable `Array.prototype.sort` call with comparator
`cmpEntries lc` (ECMAScript requires the sort to be stable). -/
def sortEntries (lc : String → String → Int) (l : List LeaderboardEntry) :
    List LeaderboardEntry :=
  l.mergeSort (entryLe lc)

/-- An entry with its rank, as produced by `{...student, rank: index + 1}`. -/
structure RankedEntry extends LeaderboardEntry where
  rank : Int
deriving DecidableEq, Repr

/-- Model of `processedData.map((student, index) => ({...student,
rank: index + 1}))`. -/
def addRanks (l : List LeaderboardEntry) : List RankedEntry :=
  l.mapIdx (fun index student =>
    { toLeaderboardEntry := student, rank := (index : Int) + 1 })

/-- The ranked leaderboard computed by the handler from the parsed rows. -/
def leaderboardData (lc : String → String → Int) (rows : List CsvRow) :
    List RankedEntry :=
  addRanks (sortEntries lc ((stripHeader rows).map processRow))

/-- The JSON values the handler serializes. -/
inductive JsonVal where
  | jstr (s : String)
  | jint (n : Int)
  | jbool (b : Bool)
  | jarr (elems : List JsonVal)
  | jobj (fields : List (String × JsonVal))

/-- Field names of a JSON object (in enumeration order). -/
def JsonVal.keys : JsonVal → List String
  | .jobj fields => fields.map Prod.fst
  | _ => []

/-- An HTTP response as built by `NextResponse.json`. -/
structure HttpResponse where
  status : Nat
  headers : List (String × String)
  body : JsonVal

/-- The CORS headers attached to every response of the route. -/
def corsHeaders : List (String × String) :=
  [("Access-Control-Allow-Origin", "*"),
   ("Access-Control-Allow-Methods", "GET, OPTIONS"),
   ("Access-Control-Allow-Headers", "Content-Type")]

/-- JSON object for one ranked entry: the seven spread fields of the
object literal in their JS enumeration order, then `rank`. -/
def rankedEntryJson (e : RankedEntry) : JsonVal :=
  .jobj [("name", .jstr e.name),
         ("redemptionStatus", .jbool e.redemptionStatus),
         ("skillBadges", .jint e.skillBadges),
         ("arcadePoints", .jint e.arcadePoints),
         ("progress", .jint e.progress),
         ("skillBadgesStr", .jstr e.skillBadgesStr),
         ("arcadePointsStr", .jstr e.arcadePointsStr),
         ("rank", .jint e.rank)]

/-- The catch-branch response of the handler. -/
def errorResponse (msg : String) : HttpResponse :=
  { status := 500
    headers := corsHeaders
    body := .jobj [("success", .jbool false),
                   ("message", .jstr "Error reading leaderboard data."),
                   ("error", .jstr msg)] }

/-- Model of the guarded file read: `existsSync` check, then streaming
the rows; a missing file rejects with the constructed message. -/
def readCsv (fileExists : Bool) (content : List CsvRow) (filePath : String) :
    Except String (List CsvRow) :=
  if fileExists then .ok content
  else .error ("CSV file not found at path: " ++ filePath)

/-- Model of the GET handler: the outcome of reading the CSV (rows, or
the message of a thrown error) and the file modification time in, one
HTTP response out. -/
def GET (lc : String → String → Int) (readResult : Except String (List CsvRow))
    (updatedAt : String) : HttpResponse :=
  match readResult with
  | .error e => errorResponse e
  | .ok results =>
    let rankedData := leaderboardData lc results
    { status := 200
      headers := corsHeaders
      body := .jobj [("success", .jbool true),
                     ("message", .jstr "Leaderboard data fetched successfully."),
                     ("updatedAt", .jstr updatedAt),
                     ("data", .jarr (rankedData.map rankedEntryJson))] }

/-- Elements of the `data` field of a response body. -/
def dataElems (r : HttpResponse) : List JsonVal :=
  match r.body with
  | .jobj fields =>
    match fields.lookup "data" with
    | some (.jarr elems) => elems
    | _ => []
  | _ => []

/-- A concrete total string comparison (code-point order): one
admissible behaviour of `localeCompare`, used to instantiate theorems
that are proved for every admissible locale comparison. -/
def codePointCompare (a b : String) : Int :=
  if a < b then -1 else if a = b then 0 else 1

/-- Spec formula for the progress field, written as the spec states it:
`min(100, round((skillBadges + arcadePoints) / 20 * 100))`. -/
def specProgress (s a : Int) : Int :=
  min 100 (jsRound (((s + a : Int) : ℚ) / 20 * 100))

/-- The claim's notion of a duplicate header row: every relevant column
repeats its own header label. -/
def repeatsHeaderLabels (r : CsvRow) : Bool :=
  r.userName == some "User Name" &&
  r.skillBadgesCompleted == some "# of Skill Badges Completed" &&
  r.arcadeGamesCompleted == some "# of Arcade Games Completed" &&
  r.accessCodeRedemption == some "Access Code Redemption Status"

/-- An ordinary data row. -/
def rowAmy : CsvRow := ⟨some "Amy", some "3", some "1", some "Yes"⟩

/-- A row with no name column. -/
def rowNoName : CsvRow := ⟨none, some "2", some "0", some "No"⟩

/-- A row whose skill-badge column parses to a negative integer. -/
def rowNeg : CsvRow := ⟨some "Al", some "-5", some "0", some "No"⟩

/-- A data row whose name column happens to hold the header label. -/
def rowTrap : CsvRow := ⟨some "User Name", some "5", some "0", some "No"⟩

/-- The ordering described by the sort-order claim: redeemed entries
first, then higher skillBadges, then higher arcadePoints, then
locale-ascending name. -/
def specOrder (lc : String → String → Int) (a b : LeaderboardEntry) : Prop :=
  (a.redemptionStatus = true ∧ b.redemptionStatus = false)
  ∨ (a.redemptionStatus = b.redemptionStatus ∧ b.skillBadges < a.skillBadges)
  ∨ (a.redemptionStatus = b.redemptionStatus ∧ a.skillBadges = b.skillBadges
      ∧ b.arcadePoints < a.arcadePoints)
  ∨ (a.redemptionStatus = b.redemptionStatus ∧ a.skillBadges = b.skillBadges
      ∧ a.arcadePoints = b.arcadePoints ∧ lc a.name b.name ≤ 0)

/-- A locale comparison is admissible when nonpositive comparison is a
total preorder (every reasonable `localeCompare` satisfies this). -/
def LocaleAdmissible (lc : String → String → Int) : Prop :=
  (∀ s t u, lc s t ≤ 0 → lc t u ≤ 0 → lc s u ≤ 0)
  ∧ (∀ s t, lc s t ≤ 0 ∨ lc t s ≤ 0)

/-- Two distinct entries on which the comparator ties. -/
def entryA : LeaderboardEntry :=
  { name := "Amy", redemptionStatus := true, skillBadges := 3, arcadePoints := 1,
    progress := 20, skillBadgesStr := "3/19", arcadePointsStr := "1/1" }

/-- Same comparator keys as `entryA`, different non-key field. -/
def entryB : LeaderboardEntry :=
  { entryA with skillBadgesStr := "other" }

/-- The rational factor `(t / 20) * 100` is the integer `5 * t`, so the
progress computation evaluates without any rounding adjustment. -/
theorem progressOf_eq (t : Int) : progressOf t = min (5 * t) 100 := by
  have h1 : ((t : ℚ) / 20 * 100) = ((5 * t : Int) : ℚ) := by push_cast; ring
  have h2 : jsRound ((5 * t : Int) : ℚ) = 5 * t := by
    unfold jsRound
    rw [add_comm, Int.floor_add_int]
    norm_num
  unfold progressOf
  rw [h1, h2]



/-- C2: for every parsed row, the derived progress field equals
`min(100, round((skillBadges + arcadePoints) / 20 * 100))` where
skillBadges and arcadePoints are the values derived for that row. -/
theorem progress_matches_spec (row : CsvRow) :
    (processRow row).progress =
      specProgress (processRow row).skillBadges (processRow row).arcadePoints := by
  simp only [processRow, specProgress, progressOf]
  exact min_comm _ _

/-- C5: the derived redemptionStatus is true iff the status field is
present and its trimmed, lowercased value is "yes"; in particular it is
false for any other value and for an absent field. -/
theorem redemption_iff_yes (row : CsvRow) :
    (processRow row).redemptionStatus = true ↔
      ∃ s, row.accessCodeRedemption = some s ∧ jsToLower (jsTrim s) = "yes" := by
  cases h : row.accessCodeRedemption <;>
    simp [processRow, redemptionOf, h]

/-- C10: an absent or empty name column yields the name "Unknown Name";
any other value is kept unchanged. -/
theorem name_default (row : CsvRow) :
    ((row.userName = none ∨ row.userName = some "") →
        (processRow row).name = "Unknown Name")
    ∧ (∀ s, row.userName = some s → s ≠ "" → (processRow row).name = s) := by
  constructor
  · rintro (h | h) <;> simp [processRow, jsOrOptString, jsOrString, h]
  · intro s hs hne
    simp [processRow, jsOrOptString, jsOrString, hs, hne]

/-- Witness for `name_default` at a concrete nameless row. -/
theorem name_default_witness :
    (rowNoName.userName = none ∨ rowNoName.userName = some "") ∧
      (processRow rowNoName).name = "Unknown Name" :=
  ⟨Or.inl rfl, (name_default rowNoName).1 (Or.inl rfl)⟩

/-- C6: a missing CSV file produces the structured error response with
status 500 rather than a crash, and any error message thrown during
processing is mapped to the same structured 500 response, whose body
carries success false, the fixed message, and the error field. -/
theorem missing_file_error (lc : String → String → Int)
    (content : List CsvRow) (filePath updatedAt : String) :
    GET lc (readCsv false content filePath) updatedAt =
      errorResponse ("CSV file not found at path: " ++ filePath)
    ∧ (∀ e mt, GET lc (Except.error e) mt = errorResponse e)
    ∧ (∀ e, (errorResponse e).status = 500
        ∧ (errorResponse e).body =
            .jobj [("success", .jbool false),
                   ("message", .jstr "Error reading leaderboard data."),
                   ("error", .jstr e)]) :=
  ⟨rfl, fun _ _ => rfl, fun _ => ⟨rfl, rfl⟩⟩

/-- C3 fails as stated: a row whose skill-badge column parses to a
negative integer produces a negative skillBadges and a progress below 0. -/
theorem entry_bounds_counterexample :
    (processRow rowNeg).skillBadges = -5 ∧ (processRow rowNeg).progress = -25 := by
  constructor
  · decide
  · show progressOf _ = -25
    rw [progressOf_eq]
    decide

/-- C3 amended: for every row whose numeric columns derive nonnegative
values (in particular whenever they are absent, fail to parse, or parse
to nonnegative integers), skillBadges and arcadePoints are nonnegative
integers and progress lies in [0, 100]. -/
theorem entry_bounds (row : CsvRow)
    (hs : 0 ≤ jsParseIntOr0 row.skillBadgesCompleted)
    (ha : 0 ≤ jsParseIntOr0 row.arcadeGamesCompleted) :
    0 ≤ (processRow row).skillBadges ∧ 0 ≤ (processRow row).arcadePoints ∧
      0 ≤ (processRow row).progress ∧ (processRow row).progress ≤ 100 := by
  have hpr : (processRow row).progress =
      min (5 * (jsParseIntOr0 row.skillBadgesCompleted +
        jsParseIntOr0 row.arcadeGamesCompleted)) 100 := progressOf_eq _
  refine ⟨hs, ha, ?_, ?_⟩
  · rw [hpr]
    exact le_min (by omega) (by omega)
  · rw [hpr]
    exact min_le_right _ _

/-- Witness for `entry_bounds` at a concrete row. -/
theorem entry_bounds_witness :
    0 ≤ jsParseIntOr0 rowAmy.skillBadgesCompleted ∧
      0 ≤ jsParseIntOr0 rowAmy.arcadeGamesCompleted ∧
      (0 ≤ (processRow rowAmy).skillBadges ∧ 0 ≤ (processRow rowAmy).arcadePoints ∧
        0 ≤ (processRow rowAmy).progress ∧ (processRow rowAmy).progress ≤ 100) :=
  ⟨by decide, by decide, entry_bounds rowAmy (by decide) (by decide)⟩

/-- C7 fails as stated: a first row whose name column holds the literal
"User Name" but whose other columns are ordinary data is removed even
though it does not repeat the header labels. -/
theorem strip_header_counterexample :
    stripHeader [rowTrap] = [] ∧ repeatsHeaderLabels rowTrap = false := by decide


theorem jsOrString_empty (s : String) : jsOrString s "" = s := by
  unfold jsOrString
  split <;> simp_all

/-- A nonpositive comparator value is exactly the claimed ordering. -/
theorem entryLe_iff (lc : String → String → Int) (a b : LeaderboardEntry) :
    entryLe lc a b = true ↔ specOrder lc a b := by
  simp only [entryLe, decide_eq_true_eq, cmpEntries, specOrder, jsOrString_empty]
  cases ha : a.redemptionStatus <;> cases hb : b.redemptionStatus <;>
    by_cases hs : b.skillBadges = a.skillBadges <;>
      by_cases hp : b.arcadePoints = a.arcadePoints <;>
        simp [ha, hb, hs, hp] <;> omega

/-- Transitivity of the claimed ordering for admissible `lc`. -/
theorem specOrder_trans (lc : String → String → Int)
    (htrans : ∀ s t u, lc s t ≤ 0 → lc t u ≤ 0 → lc s u ≤ 0)
    (a b c : LeaderboardEntry)
    (h1 : specOrder lc a b) (h2 : specOrder lc b c) : specOrder lc a c := by
  have hname := htrans a.name b.name c.name
  cases hra : a.redemptionStatus <;> cases hrb : b.redemptionStatus <;>
    cases hrc : c.redemptionStatus <;>
      simp_all only [specOrder] <;> simp_all <;> omega

/-- Totality of the claimed ordering for admissible `lc`. -/
theorem specOrder_total (lc : String → String → Int)
    (htotal : ∀ s t, lc s t ≤ 0 ∨ lc t s ≤ 0) (a b : LeaderboardEntry) :
    specOrder lc a b ∨ specOrder lc b a := by
  cases hra : a.redemptionStatus <;> cases hrb : b.redemptionStatus <;>
    simp_all only [specOrder] <;> simp_all <;>
      rcases htotal a.name b.name with h | h <;> omega

theorem entryLe_trans (lc : String → String → Int) (hlc : LocaleAdmissible lc)
    (a b c : LeaderboardEntry) :
    entryLe lc a b = true → entryLe lc b c = true → entryLe lc a c = true := by
  intro h1 h2
  rw [entryLe_iff] at h1 h2 ⊢
  exact specOrder_trans lc hlc.1 a b c h1 h2

theorem entryLe_total (lc : String → String → Int) (hlc : LocaleAdmissible lc)
    (a b : LeaderboardEntry) : (entryLe lc a b || entryLe lc b a) = true := by
  rw [Bool.or_eq_true, entryLe_iff, entryLe_iff]
  exact specOrder_total lc hlc.2 a b

/-- The concrete code-point comparison is admissible. -/
theorem codePointCompare_le_iff (a b : String) :
    codePointCompare a b ≤ 0 ↔ a ≤ b := by
  unfold codePointCompare
  split
  · next h => simp [le_of_lt h]
  · split
    · next h => simp [le_of_eq h]
    · next h1 h2 =>
      constructor
      · intro h
        omega
      · intro hle
        rcases lt_or_eq_of_le hle with h | h
        · exact absurd h h1
        · exact absurd h h2

theorem codePointCompare_admissible : LocaleAdmissible codePointCompare := by
  constructor
  · intro s t u h1 h2
    rw [codePointCompare_le_iff] at h1 h2 ⊢
    exact le_trans h1 h2
  · intro s t
    rw [codePointCompare_le_iff, codePointCompare_le_iff]
    exact le_total s t

/-- C7 amended: the first parsed row is removed iff its name column
equals the literal "User Name"; a duplicate header row repeats every
label, so it is removed, but so is any data row whose name column holds
that literal. -/
theorem strip_header_amended (r : CsvRow) (rest : List CsvRow) :
    stripHeader (r :: rest) = rest ↔ r.userName = some "User Name" := by
  constructor
  · intro h
    by_contra hne
    rw [stripHeader, if_neg hne] at h
    simpa using congrArg List.length h
  · intro h
    rw [stripHeader, if_pos h]

/-- C1: for any admissible locale comparison, the handler's sorted list
of processed entries is pairwise in the claimed order: redeemed before
non-redeemed, then descending skillBadges, then descending arcadePoints,
then ascending locale-aware name. -/
theorem sorted_spec_order (lc : String → String → Int)
    (hlc : LocaleAdmissible lc) (rows : List CsvRow) :
    (sortEntries lc ((stripHeader rows).map processRow)).Pairwise
      (specOrder lc) := by
  have h := @List.sorted_mergeSort _ (entryLe lc)
    (entryLe_trans lc hlc) (entryLe_total lc hlc)
    ((stripHeader rows).map processRow)
  exact h.imp (fun hab => (entryLe_iff lc _ _).mp hab)

/-- Witness for `sorted_spec_order` with the code-point comparison. -/
theorem sorted_spec_order_witness :
    LocaleAdmissible codePointCompare ∧
      (sortEntries codePointCompare ((stripHeader [rowAmy]).map processRow)).Pairwise
        (specOrder codePointCompare) :=
  ⟨codePointCompare_admissible,
    sorted_spec_order codePointCompare codePointCompare_admissible [rowAmy]⟩

/-- C4: the rank fields of the returned data array are exactly
1, 2, ..., n in array order (rank at 0-based position i is i + 1). -/
theorem ranks_are_positions (lc : String → String → Int) (rows : List CsvRow) :
    (leaderboardData lc rows).map (fun e => e.rank) =
      (List.range (leaderboardData lc rows).length).map
        (fun i => Int.ofNat i + 1) := by
  have h : ∀ l : List LeaderboardEntry,
      (addRanks l).map (fun e => e.rank) =
        (List.range l.length).map (fun i => Int.ofNat i + 1) := by
    intro l
    rw [addRanks, List.mapIdx_eq_enum_map, List.map_map,
      ← List.enum_map_fst l, List.map_map]
    rfl
  unfold leaderboardData
  rw [h]
  simp [addRanks]


/-- C9: the sort is stable.  Tagging each entry with its input position,
the sorted tagged list projects to the handler's sorted output, and any
two occurrences whose entries the comparator ties (comparator value 0)
keep their input order: the pair taken from positions i < j is still a
sublist of the sorted tagged list. -/
theorem sort_stable (lc : String → String → Int) (hlc : LocaleAdmissible lc)
    (l : List LeaderboardEntry) (i j : Nat) (hi : i < l.length)
    (hj : j < l.length) (hij : i < j)
    (heq : cmpEntries lc (l.get ⟨i, hi⟩) (l.get ⟨j, hj⟩) = 0) :
    ((l.enum.mergeSort (fun p q => entryLe lc p.2 q.2)).map Prod.snd =
        sortEntries lc l)
    ∧ List.Sublist [(i, l.get ⟨i, hi⟩), (j, l.get ⟨j, hj⟩)]
        (l.enum.mergeSort (fun p q => entryLe lc p.2 q.2)) := by
  constructor
  · have hmap := List.map_mergeSort
      (r := fun p q : Nat × LeaderboardEntry => entryLe lc p.2 q.2)
      (s := entryLe lc) (f := Prod.snd) (l := l.enum)
      (fun _ _ _ _ => rfl)
    rw [hmap, List.enum_map_snd]
    rfl
  · have hi' : i < l.enum.length := by rw [List.enum_length]; omega
    have hj' : j < l.enum.length := by rw [List.enum_length]; omega
    have hpair : ([⟨i, hi'⟩, ⟨j, hj'⟩] : List (Fin l.enum.length)).Pairwise
        (fun p q => p < q) :=
      List.pairwise_pair.mpr (Fin.mk_lt_mk.mpr hij)
    have hsub := List.map_getElem_sublist hpair
    simp only [List.map_cons, List.map_nil, Fin.getElem_fin,
      List.getElem_enum] at hsub
    have hab : (fun p q : Nat × LeaderboardEntry => entryLe lc p.2 q.2)
        (i, l.get ⟨i, hi⟩) (j, l.get ⟨j, hj⟩) = true := by
      simp only [entryLe, decide_eq_true_eq]
      rw [heq]
    have := @List.pair_sublist_mergeSort _
      (fun p q : Nat × LeaderboardEntry => entryLe lc p.2 q.2) _ _ _
      (fun p q r hpq hqr => entryLe_trans lc hlc p.2 q.2 r.2 hpq hqr)
      (fun p q => entryLe_total lc hlc p.2 q.2)
      hab hsub
    exact this

/-- Witness for `sort_stable`: two tied entries keep their order. -/
theorem sort_stable_witness :
    LocaleAdmissible codePointCompare ∧ (0 : Nat) < 1 ∧
      (1 : Nat) < [entryA, entryB].length ∧
      cmpEntries codePointCompare entryA entryB = 0 ∧
      ((([entryA, entryB].enum.mergeSort
            (fun p q => entryLe codePointCompare p.2 q.2)).map Prod.snd =
          sortEntries codePointCompare [entryA, entryB])
        ∧ List.Sublist [(0, entryA), (1, entryB)]
            ([entryA, entryB].enum.mergeSort
              (fun p q => entryLe codePointCompare p.2 q.2))) :=
  ⟨codePointCompare_admissible, by decide, by decide,
    by simp [cmpEntries, entryA, entryB, jsOrString, codePointCompare],
    sort_stable codePointCompare codePointCompare_admissible [entryA, entryB]
      0 1 (by decide) (by decide) (by decide)
      (by simp [cmpEntries, entryA, entryB, jsOrString, codePointCompare])⟩

/-- C8 fails as stated: the data element produced for a concrete row
also carries the fields skillBadgesStr and arcadePointsStr, so its field
list is not limited to the six fields the claim allows. -/
theorem response_shape_counterexample :
    dataElems (GET codePointCompare (Except.ok [rowAmy]) "t") =
      [rankedEntryJson { toLeaderboardEntry := processRow rowAmy, rank := 1 }]
    ∧ (rankedEntryJson { toLeaderboardEntry := processRow rowAmy, rank := 1 }).keys =
        ["name", "redemptionStatus", "skillBadges", "arcadePoints", "progress",
         "skillBadgesStr", "arcadePointsStr", "rank"]
    ∧ "skillBadgesStr" ∉ ["name", "redemptionStatus", "skillBadges",
        "arcadePoints", "progress", "rank"] := by
  refine ⟨?_, rfl, by decide⟩
  unfold dataElems GET leaderboardData sortEntries addRanks
  dsimp only
  rw [(by decide : stripHeader [rowAmy] = [rowAmy])]
  dsimp only [List.map_cons, List.map_nil]
  rw [List.mergeSort_singleton]
  rfl

/-- C8 amended: on success the payload has exactly the fields success,
message, updatedAt, data, and every data element has exactly the fields
name, redemptionStatus, skillBadges, arcadePoints, progress,
skillBadgesStr, arcadePointsStr, rank, in that order. -/
theorem response_shape (lc : String → String → Int) (rows : List CsvRow)
    (updatedAt : String) :
    (GET lc (Except.ok rows) updatedAt).status = 200
    ∧ (GET lc (Except.ok rows) updatedAt).body.keys =
        ["success", "message", "updatedAt", "data"]
    ∧ ((dataElems (GET lc (Except.ok rows) updatedAt)).map JsonVal.keys).all
        (fun ks => ks == ["name", "redemptionStatus", "skillBadges",
          "arcadePoints", "progress", "skillBadgesStr", "arcadePointsStr",
          "rank"]) = true := by
  refine ⟨rfl, rfl, ?_⟩
  have hdata : dataElems (GET lc (Except.ok rows) updatedAt) =
      (leaderboardData lc rows).map rankedEntryJson := rfl
  rw [hdata, List.map_map, List.all_eq_true]
  intro x hx
  obtain ⟨e, -, rfl⟩ := List.mem_map.mp hx
  rfl
